import Mathlib

/-
Verification of the ChipPort HTTP server core (src/main.cpp).

Modelling conventions:
- A C++ `std::string` is a byte sequence; we model it as `Str := List Char`,
  one `Char` per byte, so `List.length` is the byte length that
  `std::string::size()` reports.
- The file system collaborator (`std::ifstream` full-file read in
  `RequestHandler::handleRequest`) is an explicit parameter
  `fs : Str → Option Str`: `none` models an open failure, `some c` a
  successful full read of contents `c`.
- `std::map` is modelled as an association list; the claims only ever use
  exact-key lookup and last-write-wins insertion, on which the two agree.
- `std::string::substr(pos, count)` throws `std::out_of_range` when
  `pos > size()`; parsing is therefore modelled as `Option`-valued, with
  `none` standing for a thrown exception escaping `Request::Request`.
-/

set_option autoImplicit false

/-- Byte strings: one `Char` per byte of a C++ `std::string`. -/
abbrev Str := List Char

/-- Embed a Lean string literal as a byte string (all literals used are ASCII). -/
def str (s : String) : Str := s.toList

/-- Split a byte string at every line feed, keeping all (possibly empty)
segments; `splitNL s` always has one more element than `s` has line feeds. -/
def splitNL : Str → List Str
  | [] => [[]]
  | c :: cs =>
    if c = '\n' then [] :: splitNL cs
    else
      match splitNL cs with
      | [] => [[c]]
      | s :: ss => (c :: s) :: ss

/-- The sequence of lines that successive `std::getline` calls yield on an
`istringstream` over `s`: each segment up to a line feed, the line feed
consumed; the final segment is yielded only if nonempty reading happened,
so an input that is empty or ends in a line feed drops the trailing empty
segment (`getline` fails at end of input having read nothing). -/
def getLines (s : Str) : List Str :=
  match s.getLast? with
  | none => []
  | some c => if c = '\n' then (splitNL s).dropLast else splitNL s

/-- Whitespace for the default-locale `operator>>` extraction used on the
request line: space, tab, line feed, vertical tab, form feed, carriage return. -/
def isWS (c : Char) : Bool :=
  c = ' ' || c = '\t' || c = '\n' || c = Char.ofNat 11 || c = Char.ofNat 12 || c = '\r'

/-- Split a byte string at every whitespace character (empty segments kept). -/
def splitWS : Str → List Str
  | [] => [[]]
  | c :: cs =>
    if isWS c then [] :: splitWS cs
    else
      match splitWS cs with
      | [] => [[c]]
      | s :: ss => (c :: s) :: ss

/-- The whitespace-separated tokens `operator>>` extracts from a line. -/
def tokenize (s : Str) : List Str := (splitWS s).filter (fun t => !t.isEmpty)

/-- Index of the first colon in a line (`std::string::find`). -/
def findColon : Str → Option Nat
  | [] => none
  | c :: cs => if c = ':' then some 0 else (findColon cs).map (· + 1)

/-- Index of the last dot in a name (`std::string::find_last_of`). -/
def findLastDot : Str → Option Nat
  | [] => none
  | c :: cs =>
    match findLastDot cs with
    | some i => some (i + 1)
    | none => if c = '.' then some 0 else none

/-- Exact-key association-list lookup (`std::map::find` / `count`). -/
def alookup {β : Type} (k : Str) : List (Str × β) → Option β
  | [] => none
  | (a, b) :: t => if a = k then some b else alookup k t

/-- Last-write-wins insertion (`std::map::operator[]` assignment). -/
def mapInsert (k v : Str) : List (Str × Str) → List (Str × Str)
  | [] => [(k, v)]
  | (a, b) :: t => if a = k then (a, v) :: t else (a, b) :: mapInsert k v t

/-- The fixed extension table of `getContentType` in src/main.cpp. -/
def extensionToContentType : List (Str × Str) :=
  [ (str ".html", str "text/html"),
    (str ".jpg", str "image/jpeg"),
    (str ".jpeg", str "image/jpeg"),
    (str ".png", str "image/png"),
    (str ".css", str "text/css"),
    (str ".js", str "application/javascript") ]

/-- `getContentType` from src/main.cpp: take the substring from the last dot
to the end and look it up, case-sensitively, in the fixed table; default to
application/octet-stream when there is no dot or no table entry. -/
def getContentType (filename : Str) : Str :=
  match findLastDot filename with
  | some dotPosition =>
    let extension := filename.drop dotPosition
    match alookup extension extensionToContentType with
    | some ct => ct
    | none => str "application/octet-stream"
  | none => str "application/octet-stream"

/-- The parsed request of src/main.cpp (`struct Request`). -/
structure Request where
  method : Str
  path : Str
  httpVersion : Str
  headers : List (Str × Str)
  body : Str
  deriving DecidableEq

/-- The header-value slice `line.substr(colonPos + 2, line.size() - colonPos - 3)`
of `Request::Request`. `substr` throws `std::out_of_range` (modelled as `none`)
when the start position `colonPos + 2` exceeds the line length, which happens
exactly when the colon is the last character of the line. The `size_t` count
`line.size() - colonPos - 3` wraps to a huge value when it underflows, which
`substr` then clamps to the end of the string; in the one reachable underflow
case (`colonPos + 2 = line.size()`) zero characters remain, so truncated `Nat`
subtraction yields the same slice. -/
def headerValue (line : Str) (colonPos : Nat) : Option Str :=
  if colonPos + 2 ≤ line.length then
    some ((line.drop (colonPos + 2)).take (line.length - colonPos - 3))
  else none

/-- The header loop of `Request::Request`: consume lines until one equal to a
bare carriage return (or end of input), recording `name ↦ value` for every
line containing a colon; returns the headers and the unconsumed lines, or
`none` when the `substr` call throws. -/
def parseHeaders : List Str → List (Str × Str) → Option (List (Str × Str) × List Str)
  | [], hs => some (hs, [])
  | l :: ls, hs =>
    if l = str "\r" then some (hs, ls)
    else
      match findColon l with
      | none => parseHeaders ls hs
      | some colonPos =>
        match headerValue l colonPos with
        | none => none
        | some v => parseHeaders ls (mapInsert (l.take colonPos) v hs)

/-- The body loop of `Request::Request`: `body += bodyContent + "\n"` for each
remaining line. -/
def buildBody (ls : List Str) : Str :=
  ls.foldl (fun b l => b ++ l ++ ['\n']) []

/-- `Request::Request(const std::string&)` from src/main.cpp: first line is
whitespace-split into up to three tokens (missing tokens leave empty fields),
then headers until a bare carriage-return line, then every remaining line with
a line feed appended becomes the body. `none` models the uncaught
`std::out_of_range` from the header-value `substr`. -/
def parseRequest (raw : Str) : Option Request :=
  match parseHeaders (getLines raw).tail [] with
  | none => none
  | some (hs, rest) =>
    some ⟨((tokenize ((getLines raw).headD [])).get? 0).getD [],
          ((tokenize ((getLines raw).headD [])).get? 1).getD [],
          ((tokenize ((getLines raw).headD [])).get? 2).getD [],
          hs, buildBody rest⟩

/-- Little-endian decimal digits of `n`, with explicit fuel (structural, so the
kernel can evaluate it); `fuel ≥ n` suffices for correctness. -/
def digitsRev : Nat → Nat → List Nat
  | 0, _ => []
  | _ + 1, 0 => []
  | fuel + 1, n + 1 => ((n + 1) % 10) :: digitsRev fuel ((n + 1) / 10)

/-- Decimal rendering of a natural number, as `operator<<` prints an `int` or
`size_t` (the status code and `body.length()` in `buildResponse`). -/
def natToStr (n : Nat) : Str :=
  if n = 0 then ['0'] else ((digitsRev n n).map Nat.digitChar).reverse

/-- The response record of src/main.cpp (`struct Response`); the status code is
kept as a `Nat` — the core only ever constructs 200, 404 and 405. -/
structure Response where
  code : Nat
  body : Str
  contentType : Str
  deriving DecidableEq

/-- The reason-phrase conditional of `Response::buildResponse`: 200 → OK,
404 → Not Found, every other code → Method Not Allowed. -/
def statusReason (code : Nat) : Str :=
  if code = 200 then str "OK"
  else if code = 404 then str "Not Found"
  else str "Method Not Allowed"

/-- `Response::buildResponse` from src/main.cpp: status line, Content-Type,
Content-Length (the byte length of the body), a blank line, then the body,
all separated by bare line feeds. -/
def Response.buildResponse (r : Response) : Str :=
  str "HTTP/1.1 " ++ natToStr r.code ++ str " " ++ statusReason r.code ++ str "\n" ++
  str "Content-Type: " ++ r.contentType ++ str "\n" ++
  str "Content-Length: " ++ natToStr r.body.length ++ str "\n\n" ++
  r.body

/-- A route-table entry of src/main.cpp (`struct RouteEntry`). -/
structure RouteEntry where
  allowedMethods : List Str
  content : Str
  isFile : Bool
  deriving DecidableEq

/-- The handler state: the `routeLookUp` member of `class RequestHandler`. -/
structure RequestHandler where
  routeLookUp : List (Str × RouteEntry)
  deriving DecidableEq

/-- The fixed route table built by the `RequestHandler` constructor. -/
def RequestHandler.init : RequestHandler :=
  ⟨[ (str "/", ⟨[str "GET"], str "./templates/index.html", true⟩),
     (str "/test/get", ⟨[str "GET"], str "./templates/test.html", true⟩),
     (str "/test/post", ⟨[str "POST"], str "./templates/test.html", true⟩),
     (str "/test/put", ⟨[str "PUT"], str "./templates/test.html", true⟩),
     (str "/test/post-get", ⟨[str "GET", str "POST"], str "./templates/test.html", true⟩),
     (str "/favicon.ico", ⟨[str "GET"], str "./static/img/favicon.jpg", true⟩) ]⟩

/-- The file-system collaborator: full-file read, `none` on open failure. -/
def FileSystem := Str → Option Str

/-- The `allowed` accumulation of the 405 branch: each allowed method followed
by one space, in declared order. -/
def joinMethods (ms : List Str) : Str :=
  ms.foldl (fun allowed m => allowed ++ m ++ [' ']) []

/-- `RequestHandler::handleRequest` from src/main.cpp, with the handler state
threaded explicitly: every C++ return path leaves `routeLookUp` untouched, so
each branch returns the response paired with the incoming state. -/
def RequestHandler.handleRequest (h : RequestHandler) (fs : FileSystem)
    (request : Request) : Response × RequestHandler :=
  match alookup request.path h.routeLookUp with
  | none =>
    (⟨404, str "<html><body>404 Route Not Found: " ++ request.path ++
           str "</body></html>", str "text/html"⟩, h)
  | some route =>
    if request.method ∈ route.allowedMethods then
      if route.isFile then
        match fs route.content with
        | none =>
          (⟨404, str "<html><body>404 Resource Not Found: " ++ request.path ++
                 str "</body></html>", str "text/html"⟩, h)
        | some content => (⟨200, content, getContentType route.content⟩, h)
      else (⟨200, route.content, str "text/html"⟩, h)
    else
      (⟨405, str "<html><body>405 Method Not Allowed: " ++ request.method ++
             str " not allowed for " ++ request.path ++
             str ". Allowed methods: " ++ joinMethods route.allowedMethods ++
             str "</body></html>", str "text/html"⟩, h)

/-- A sequence of requests handled one after another, threading the handler
state, as the accept loop of `HttpServer::run` does. -/
def processAll (h : RequestHandler) (fs : FileSystem) :
    List Request → List Response × RequestHandler
  | [] => ([], h)
  | r :: rs =>
    let pr := h.handleRequest fs r
    let prs := processAll pr.2 fs rs
    (pr.1 :: prs.1, prs.2)

/-- Space-separated join (`List.intersperse` then concatenation), used to state
what "the allowed methods, space-separated, in declared order" means. -/
def spaceSep (ms : List Str) : Str := (List.intersperse (str " ") ms).flatten

lemma joinMethods_foldl (ms : List Str) (a : Str) :
    ms.foldl (fun allowed m => allowed ++ m ++ [' ']) a = a ++ joinMethods ms := by
  induction ms generalizing a with
  | nil => simp [joinMethods]
  | cons m ms ih =>
    show List.foldl _ (a ++ m ++ [' ']) ms = a ++ joinMethods (m :: ms)
    have hcons : joinMethods (m :: ms) = (m ++ [' ']) ++ joinMethods ms := by
      show List.foldl _ ([] ++ m ++ [' ']) ms = _
      rw [ih]
      simp
    rw [ih, hcons]
    simp [List.append_assoc]

lemma joinMethods_cons (m : Str) (ms : List Str) :
    joinMethods (m :: ms) = m ++ [' '] ++ joinMethods ms := by
  show List.foldl _ ([] ++ m ++ [' ']) ms = _
  rw [joinMethods_foldl]
  simp [List.append_assoc]

lemma joinMethods_eq_spaceSep (ms : List Str) (h : ms ≠ []) :
    joinMethods ms = spaceSep ms ++ [' '] := by
  induction ms with
  | nil => exact absurd rfl h
  | cons m ms ih =>
    cases ms with
    | nil => simp [joinMethods_cons, joinMethods, spaceSep]
    | cons m2 rest =>
      rw [joinMethods_cons, ih (by simp)]
      simp [spaceSep, List.intersperse, str, List.append_assoc]

lemma handleRequest_state (h : RequestHandler) (fs : FileSystem) (req : Request) :
    (h.handleRequest fs req).2 = h := by
  unfold RequestHandler.handleRequest
  cases hroute : alookup req.path h.routeLookUp with
  | none => rfl
  | some route =>
    by_cases hm : req.method ∈ route.allowedMethods
    · cases hf : route.isFile with
      | false => simp [hm, hf]
      | true => cases hread : fs route.content <;> simp [hm, hf, hread]
    · simp [hm]

/-- C9: handleRequest never modifies the route table: the handler state after
routing one request, or any sequence of requests, is identical to the state
before, so the set of paths and every entry's allowedMethods, content and
isFile are preserved. -/
theorem c9_route_table_immutable :
    (∀ (h : RequestHandler) (fs : FileSystem) (req : Request),
       ((h.handleRequest fs req).2).routeLookUp = h.routeLookUp) ∧
    (∀ (h : RequestHandler) (fs : FileSystem) (reqs : List Request),
       (processAll h fs reqs).2 = h) := by
  constructor
  · intro h fs req
    rw [handleRequest_state]
  · intro h fs reqs
    induction reqs generalizing h with
    | nil => rfl
    | cons r rs ih =>
      simp only [processAll]
      rw [handleRequest_state, ih]

/-- C4: a request whose path is not a key of the fixed route table (under exact
byte-for-byte equality — the lookup does no normalization) yields a 404
response, whatever the method. -/
theorem c4_unknown_path_404 (fs : FileSystem) (req : Request)
    (hnone : alookup req.path RequestHandler.init.routeLookUp = none) :
    ((RequestHandler.init.handleRequest fs req).1).code = 404 := by
  unfold RequestHandler.handleRequest
  rw [hnone]

/-- C4 witness: a trailing slash defeats the exact-match lookup, and the method
does not matter (shown here with POST on "/test/get/"). -/
theorem c4_unknown_path_404_witness :
    ((RequestHandler.init.handleRequest (fun _ => none)
        ⟨str "POST", str "/test/get/", str "HTTP/1.1", [], []⟩).1).code = 404 :=
  c4_unknown_path_404 (fun _ => none)
    ⟨str "POST", str "/test/get/", str "HTTP/1.1", [], []⟩ (by decide)

/-- C5: a file-backed route whose file cannot be opened at request time yields,
for an allowed method, the well-formed 404 resource-not-found response — the
handler is total (no crash) and the code is 404, not 500. -/
theorem c5_missing_file_404 (fs : FileSystem) (req : Request) (e : RouteEntry)
    (he : alookup req.path RequestHandler.init.routeLookUp = some e)
    (hfile : e.isFile = true)
    (hm : req.method ∈ e.allowedMethods)
    (hread : fs e.content = none) :
    (RequestHandler.init.handleRequest fs req).1 =
      ⟨404, str "<html><body>404 Resource Not Found: " ++ req.path ++
            str "</body></html>", str "text/html"⟩ ∧
    ((RequestHandler.init.handleRequest fs req).1).code ≠ 500 := by
  have hmain : (RequestHandler.init.handleRequest fs req).1 =
      ⟨404, str "<html><body>404 Resource Not Found: " ++ req.path ++
            str "</body></html>", str "text/html"⟩ := by
    unfold RequestHandler.handleRequest
    rw [he]
    simp [hm, hfile, hread]
  exact ⟨hmain, by rw [hmain]; simp⟩

/-- C5 witness: GET on "/" with a file system on which every open fails. -/
theorem c5_missing_file_404_witness :
    (RequestHandler.init.handleRequest (fun _ => none)
        ⟨str "GET", str "/", str "HTTP/1.1", [], []⟩).1 =
      ⟨404, str "<html><body>404 Resource Not Found: " ++ str "/" ++
            str "</body></html>", str "text/html"⟩ :=
  (c5_missing_file_404 (fun _ => none)
    ⟨str "GET", str "/", str "HTTP/1.1", [], []⟩
    ⟨[str "GET"], str "./templates/index.html", true⟩
    (by decide) (by decide) (by decide) rfl).1

/-- C1: for every registered route and every method on its allow-list, the
handler answers 200 with the full file contents (file-backed entry whose read
succeeds) or the literal content string (non-file entry). -/
theorem c1_allowed_method_serves_content (fs : FileSystem) (req : Request)
    (e : RouteEntry)
    (he : alookup req.path RequestHandler.init.routeLookUp = some e)
    (hm : req.method ∈ e.allowedMethods) :
    (e.isFile = true → ∀ data, fs e.content = some data →
       (RequestHandler.init.handleRequest fs req).1 =
         ⟨200, data, getContentType e.content⟩) ∧
    (e.isFile = false →
       (RequestHandler.init.handleRequest fs req).1 =
         ⟨200, e.content, str "text/html"⟩) := by
  constructor
  · intro hfile data hdata
    unfold RequestHandler.handleRequest
    rw [he]
    simp [hm, hfile, hdata]
  · intro hfile
    unfold RequestHandler.handleRequest
    rw [he]
    simp [hm, hfile]

/-- C1 witness: GET on "/" with a file system serving the index template. -/
theorem c1_allowed_method_serves_content_witness :
    (RequestHandler.init.handleRequest
        (fun p => if p = str "./templates/index.html" then some (str "INDEX") else none)
        ⟨str "GET", str "/", str "HTTP/1.1", [], []⟩).1 =
      ⟨200, str "INDEX", getContentType (str "./templates/index.html")⟩ :=
  (c1_allowed_method_serves_content
    (fun p => if p = str "./templates/index.html" then some (str "INDEX") else none)
    ⟨str "GET", str "/", str "HTTP/1.1", [], []⟩
    ⟨[str "GET"], str "./templates/index.html", true⟩
    (by decide) (by decide)).1 rfl (str "INDEX") (by decide)

lemma init_entries_nonempty (p : Str) (e : RouteEntry)
    (he : alookup p RequestHandler.init.routeLookUp = some e) :
    e.allowedMethods ≠ [] := by
  simp only [RequestHandler.init, alookup] at he
  repeat' split at he
  all_goals first
    | (cases he; decide)
    | cases he

/-- C3: a request to a registered route with a method outside its allow-list
yields a 405 whose body is the fixed message carrying each allowed method
followed by a space, in declared order — in particular the body contains the
allowed methods space-separated in their declared enumeration order. -/
theorem c3_disallowed_method_405 (fs : FileSystem) (req : Request) (e : RouteEntry)
    (he : alookup req.path RequestHandler.init.routeLookUp = some e)
    (hm : req.method ∉ e.allowedMethods) :
    ((RequestHandler.init.handleRequest fs req).1).code = 405 ∧
    ((RequestHandler.init.handleRequest fs req).1).body =
      str "<html><body>405 Method Not Allowed: " ++ req.method ++
      str " not allowed for " ++ req.path ++ str ". Allowed methods: " ++
      joinMethods e.allowedMethods ++ str "</body></html>" ∧
    (∃ pre post, ((RequestHandler.init.handleRequest fs req).1).body =
      pre ++ spaceSep e.allowedMethods ++ post) := by
  have hresp : (RequestHandler.init.handleRequest fs req).1 =
      ⟨405, str "<html><body>405 Method Not Allowed: " ++ req.method ++
            str " not allowed for " ++ req.path ++ str ". Allowed methods: " ++
            joinMethods e.allowedMethods ++ str "</body></html>",
        str "text/html"⟩ := by
    unfold RequestHandler.handleRequest
    rw [he]
    simp [hm, List.append_assoc]
  refine ⟨by rw [hresp], by rw [hresp], ?_⟩
  refine ⟨str "<html><body>405 Method Not Allowed: " ++ req.method ++
          str " not allowed for " ++ req.path ++ str ". Allowed methods: ",
          [' '] ++ str "</body></html>", ?_⟩
  rw [hresp]
  rw [joinMethods_eq_spaceSep e.allowedMethods (init_entries_nonempty req.path e he)]
  simp [List.append_assoc]

/-- C3 witness: DELETE on "/test/post-get" answers 405 and lists GET POST. -/
theorem c3_disallowed_method_405_witness :
    ((RequestHandler.init.handleRequest (fun _ => none)
        ⟨str "DELETE", str "/test/post-get", str "HTTP/1.1", [], []⟩).1).code = 405 ∧
    ((RequestHandler.init.handleRequest (fun _ => none)
        ⟨str "DELETE", str "/test/post-get", str "HTTP/1.1", [], []⟩).1).body =
      str "<html><body>405 Method Not Allowed: DELETE not allowed for /test/post-get. Allowed methods: GET POST </body></html>" := by
  have h := c3_disallowed_method_405 (fun _ => none)
    ⟨str "DELETE", str "/test/post-get", str "HTTP/1.1", [], []⟩
    ⟨[str "GET", str "POST"], str "./templates/test.html", true⟩
    (by decide) (by decide)
  exact ⟨h.1, h.2.1.trans (by decide)⟩

/-- The substring from the last dot of a name to its end, when a dot exists:
the quantity `getContentType` is claimed to be a pure function of. -/
def lastExtension (s : Str) : Option Str := (findLastDot s).map (fun i => s.drop i)

lemma getContentType_by_lastExtension (s : Str) :
    getContentType s =
      match lastExtension s with
      | none => str "application/octet-stream"
      | some ext => ((alookup ext extensionToContentType).getD
          (str "application/octet-stream")) := by
  cases hfd : findLastDot s with
  | none => simp [getContentType, lastExtension, hfd]
  | some i =>
    simp only [getContentType, lastExtension, hfd, Option.map_some]
    cases hlook : alookup (List.drop i s) extensionToContentType <;> simp [hlook]

/-- C6: getContentType depends only on the substring from the last dot of its
argument to the end; that suffix is matched, dot included and case-sensitively,
against the fixed table, and a missing dot, an unknown extension, or an
uppercase variant such as ".PNG" all fall back to application/octet-stream. -/
theorem c6_content_type_of_extension :
    (∀ s t, lastExtension s = lastExtension t → getContentType s = getContentType t) ∧
    (∀ s, lastExtension s = none → getContentType s = str "application/octet-stream") ∧
    (∀ s ext, lastExtension s = some ext →
       alookup ext extensionToContentType = none →
       getContentType s = str "application/octet-stream") ∧
    (∀ s, lastExtension s = some (str ".PNG") →
       getContentType s = str "application/octet-stream") ∧
    (∀ s, lastExtension s = some (str ".html") → getContentType s = str "text/html") ∧
    (∀ s, lastExtension s = some (str ".jpg") → getContentType s = str "image/jpeg") ∧
    (∀ s, lastExtension s = some (str ".jpeg") → getContentType s = str "image/jpeg") ∧
    (∀ s, lastExtension s = some (str ".png") → getContentType s = str "image/png") ∧
    (∀ s, lastExtension s = some (str ".css") → getContentType s = str "text/css") ∧
    (∀ s, lastExtension s = some (str ".js") →
       getContentType s = str "application/javascript") := by
  refine ⟨?_, ?_, ?_, ?_, ?_, ?_, ?_, ?_, ?_, ?_⟩
  · intro s t hst
    rw [getContentType_by_lastExtension s, getContentType_by_lastExtension t, hst]
  all_goals intro s
  · intro hnone
    rw [getContentType_by_lastExtension s, hnone]
  · intro ext hext hlook
    rw [getContentType_by_lastExtension s, hext]
    simp [hlook]
  all_goals intro hext
  all_goals rw [getContentType_by_lastExtension s, hext]
  all_goals decide

/-- C6 witness: the spec's three boundary cases, including the case-sensitive
".PNG" one. -/
theorem c6_content_type_of_extension_witness :
    getContentType (str "a.b.html") = str "text/html" ∧
    getContentType (str "noext") = str "application/octet-stream" ∧
    getContentType (str "x.PNG") = str "application/octet-stream" :=
  ⟨c6_content_type_of_extension.2.2.2.2.1 (str "a.b.html") (by decide),
   c6_content_type_of_extension.2.1 (str "noext") (by decide),
   c6_content_type_of_extension.2.2.2.1 (str "x.PNG") (by decide)⟩

/-- A header line is safe for the `substr` slice exactly when its first colon,
if any, is not its last character. -/
def headerLineOkB (l : Str) : Bool :=
  match findColon l with
  | none => true
  | some colonPos => decide (colonPos + 2 ≤ l.length)

lemma parseHeaders_ok (ls : List Str) (hs : List (Str × Str))
    (hok : ∀ l ∈ ls.takeWhile (fun l => decide (l ≠ str "\r")), headerLineOkB l = true) :
    ∃ res, parseHeaders ls hs = some res := by
  induction ls generalizing hs with
  | nil => exact ⟨(hs, []), rfl⟩
  | cons l ls ih =>
    by_cases hl : l = str "\r"
    · exact ⟨(hs, ls), by simp [parseHeaders, hl]⟩
    · have htw : (l :: ls).takeWhile (fun l => decide (l ≠ str "\r")) =
          l :: ls.takeWhile (fun l => decide (l ≠ str "\r")) := by
        simp [List.takeWhile_cons, hl]
      have hokl : headerLineOkB l = true := hok l (by rw [htw]; exact List.mem_cons_self l _)
      have hoktail : ∀ x ∈ ls.takeWhile (fun l => decide (l ≠ str "\r")),
          headerLineOkB x = true := by
        intro x hx
        exact hok x (by rw [htw]; exact List.mem_cons_of_mem l hx)
      cases hcolon : findColon l with
      | none =>
        obtain ⟨res, hres⟩ := ih hs hoktail
        exact ⟨res, by simp [parseHeaders, hl, hcolon, hres]⟩
      | some colonPos =>
        have hle : colonPos + 2 ≤ l.length := by
          have := hokl
          rw [headerLineOkB, hcolon] at this
          exact of_decide_eq_true this
        obtain ⟨res, hres⟩ := ih (mapInsert (l.take colonPos)
          ((l.drop (colonPos + 2)).take (l.length - colonPos - 3)) hs) hoktail
        refine ⟨res, ?_⟩
        simp [parseHeaders, hl, hcolon, headerValue, hle, hres]

/-- C2 counterexample: on the raw input "GET / HTTP/1.1\nA:\n\r\n" — whose
header section contains the line "A:", with the colon as its last character —
`Request::Request` does not terminate normally: the `substr` slice throws
`std::out_of_range` (modelled as `none`), so parsing does signal an error. -/
theorem c2_parse_error_counterexample :
    parseRequest (str "GET / HTTP/1.1\nA:\n\r\n") = none := by decide

/-- C2 (amended): Request parsing terminates normally and never signals an
error on every raw input in which no header line scanned before the bare
carriage-return separator has its first colon as its last character; on such
inputs malformed request lines still yield a Request with empty or partial
fields rather than a failure. (The counterexample forces the proviso: a
scanned header line ending in a colon makes the `substr` slice throw.) -/
theorem c2_parse_total_amended (raw : Str)
    (hok : ∀ l ∈ ((getLines raw).tail.takeWhile (fun l => decide (l ≠ str "\r"))),
      headerLineOkB l = true) :
    ∃ req, parseRequest raw = some req := by
  obtain ⟨⟨hs, rest⟩, hres⟩ := parseHeaders_ok (getLines raw).tail [] hok
  refine ⟨⟨((tokenize ((getLines raw).headD [])).get? 0).getD [],
           ((tokenize ((getLines raw).headD [])).get? 1).getD [],
           ((tokenize ((getLines raw).headD [])).get? 2).getD [],
           hs, buildBody rest⟩, ?_⟩
  unfold parseRequest
  rw [hres]

/-- C2 witness: a well-formed request with headers parses successfully. -/
theorem c2_parse_total_amended_witness :
    (parseRequest (str "GET / HTTP/1.1\r\nHost: x\r\n\r\nhello")).isSome = true := by
  obtain ⟨req, hreq⟩ :=
    c2_parse_total_amended (str "GET / HTTP/1.1\r\nHost: x\r\n\r\nhello") (by decide)
  rw [hreq]
  rfl

lemma buildBody_empty_or_nl (ls : List Str) :
    buildBody ls = [] ∨ (buildBody ls).getLast? = some '\n' := by
  have hgen : ∀ (ls : List Str) (a : Str), a = [] ∨ a.getLast? = some '\n' →
      (ls.foldl (fun b l => b ++ l ++ ['\n']) a = [] ∨
       (ls.foldl (fun b l => b ++ l ++ ['\n']) a).getLast? = some '\n') := by
    intro ls
    induction ls with
    | nil => intro a ha; exact ha
    | cons l ls ih =>
      intro a _
      exact ih (a ++ l ++ ['\n']) (Or.inr (by simp))
  exact hgen ls [] (Or.inl rfl)

/-- C10: every successfully parsed Request has a body that is either empty or
ends with a line feed, because the body loop appends a line feed to every line
it reads; a raw body not terminated by a line feed is therefore not reproduced
byte-for-byte. -/
theorem c10_body_empty_or_ends_newline (raw : Str) (req : Request)
    (h : parseRequest raw = some req) :
    req.body = [] ∨ req.body.getLast? = some '\n' := by
  unfold parseRequest at h
  cases hph : parseHeaders (getLines raw).tail [] with
  | none => rw [hph] at h; cases h
  | some res =>
    obtain ⟨hs, rest⟩ := res
    rw [hph] at h
    cases h
    exact buildBody_empty_or_nl rest

/-- C10 witness: the raw body "abc" (no trailing line feed) parses to the body
"abc\n", which ends with a line feed and differs from the raw bytes. -/
theorem c10_body_empty_or_ends_newline_witness :
    (str "GET / HTTP/1.1\n\r\nabc" |> parseRequest) =
      some ⟨str "GET", str "/", str "HTTP/1.1", [], str "abc\n"⟩ ∧
    (str "abc\n" = [] ∨ (str "abc\n").getLast? = some '\n') :=
  ⟨by decide,
   c10_body_empty_or_ends_newline (str "GET / HTTP/1.1\n\r\nabc")
     ⟨str "GET", str "/", str "HTTP/1.1", [], str "abc\n"⟩ (by decide)⟩

/-- Numeric value of a decimal digit character. -/
def digitVal (c : Char) : Nat := c.toNat - '0'.toNat

/-- Re-parse a decimal numeral, as a reader of the serialized header would. -/
def readNat (s : Str) : Nat := s.foldl (fun acc c => acc * 10 + digitVal c) 0

/-- Value of a little-endian digit list. -/
def valRev : List Nat → Nat
  | [] => 0
  | d :: ds => d + 10 * valRev ds

lemma digitsRev_lt (fuel n : Nat) : ∀ d ∈ digitsRev fuel n, d < 10 := by
  induction fuel generalizing n with
  | zero => intro d hd; cases hd
  | succ fuel ih =>
    cases n with
    | zero => intro d hd; cases hd
    | succ m =>
      intro d hd
      rcases List.mem_cons.mp hd with h | h
      · rw [h]; exact Nat.mod_lt _ (by omega)
      · exact ih _ d h

lemma digitsRev_val (fuel n : Nat) (h : n ≤ fuel) : valRev (digitsRev fuel n) = n := by
  induction fuel generalizing n with
  | zero =>
    have : n = 0 := Nat.le_zero.mp h
    rw [this]; rfl
  | succ fuel ih =>
    cases n with
    | zero => rfl
    | succ m =>
      have hdiv : (m + 1) / 10 ≤ fuel := by
        have : (m + 1) / 10 < m + 1 := Nat.div_lt_self (by omega) (by omega)
        omega
      simp only [digitsRev, valRev, ih _ hdiv]
      omega

lemma readNat_rev_map (ds : List Nat) (hds : ∀ d ∈ ds, d < 10) (a : Nat) :
    List.foldl (fun acc c => acc * 10 + digitVal c) a ((ds.map Nat.digitChar).reverse) =
      a * 10 ^ ds.length + valRev ds := by
  induction ds generalizing a with
  | nil => simp [valRev]
  | cons d ds ih =>
    have hd : d < 10 := hds d (List.mem_cons_self d ds)
    have hval : digitVal (Nat.digitChar d) = d := by
      have : ∀ e, e < 10 → digitVal (Nat.digitChar e) = e := by decide
      exact this d hd
    simp only [List.map_cons, List.reverse_cons, List.foldl_append, List.foldl_cons,
      List.foldl_nil]
    rw [ih (fun e he => hds e (List.mem_cons_of_mem d he))]
    simp only [valRev, List.length_cons, hval]
    ring

lemma readNat_natToStr (n : Nat) : readNat (natToStr n) = n := by
  by_cases h0 : n = 0
  · rw [h0]; rfl
  · unfold natToStr readNat
    rw [if_neg h0]
    rw [readNat_rev_map (digitsRev n n) (digitsRev_lt n n) 0]
    rw [digitsRev_val n n (Nat.le_refl n)]
    ring

lemma natToStr_no_nl (n : Nat) : '\n' ∉ natToStr n := by
  unfold natToStr
  by_cases h0 : n = 0
  · rw [if_pos h0]; decide
  · rw [if_neg h0]
    intro hmem
    rw [List.mem_reverse] at hmem
    obtain ⟨d, hd, hchar⟩ := List.mem_map.mp hmem
    have hlt : d < 10 := digitsRev_lt n n d hd
    have : ∀ e, e < 10 → Nat.digitChar e ≠ '\n' := by decide
    exact this d hlt hchar

lemma splitNL_append_line (xs rest : Str) (hxs : '\n' ∉ xs) :
    splitNL (xs ++ '\n' :: rest) = xs :: splitNL rest := by
  induction xs with
  | nil => simp [splitNL]
  | cons c cs ih =>
    have hc : c ≠ '\n' := fun hc => hxs (hc ▸ List.mem_cons_self c cs)
    have hcs : '\n' ∉ cs := fun h => hxs (List.mem_cons_of_mem c h)
    simp only [List.cons_append, splitNL, if_neg hc, List.append_eq]
    rw [ih hcs]

/-- Re-parse the Content-Length header from serialized response bytes: take the
third line-feed-separated line and read the decimal after the fixed label. -/
def extractContentLength (s : Str) : Option Nat :=
  match (splitNL s).get? 2 with
  | none => none
  | some l =>
    if l.take 16 = str "Content-Length: " then some (readNat (l.drop 16)) else none

lemma statusReason_no_nl (code : Nat) : '\n' ∉ statusReason code := by
  unfold statusReason
  by_cases h200 : code = 200
  · rw [if_pos h200]; decide
  · rw [if_neg h200]
    by_cases h404 : code = 404
    · rw [if_pos h404]; decide
    · rw [if_neg h404]; decide

lemma buildResponse_split (r : Response) (hct : '\n' ∉ r.contentType) :
    splitNL r.buildResponse =
      (str "HTTP/1.1 " ++ natToStr r.code ++ str " " ++ statusReason r.code) ::
      (str "Content-Type: " ++ r.contentType) ::
      (str "Content-Length: " ++ natToStr r.body.length) ::
      [] :: splitNL r.body := by
  have hb : r.buildResponse =
      (str "HTTP/1.1 " ++ natToStr r.code ++ str " " ++ statusReason r.code) ++
      '\n' :: ((str "Content-Type: " ++ r.contentType) ++
      '\n' :: ((str "Content-Length: " ++ natToStr r.body.length) ++
      '\n' :: ('\n' :: r.body))) := by
    unfold Response.buildResponse
    simp [str, List.append_assoc]
  rw [hb]
  have h1 : '\n' ∉ str "HTTP/1.1 " ++ natToStr r.code ++ str " " ++ statusReason r.code := by
    intro hmem
    simp only [List.mem_append] at hmem
    rcases hmem with ((ha | hb2) | hc) | hd
    · exact absurd ha (by decide)
    · exact natToStr_no_nl r.code hb2
    · exact absurd hc (by decide)
    · exact statusReason_no_nl r.code hd
  have h2 : '\n' ∉ str "Content-Type: " ++ r.contentType := by
    intro hmem
    rcases List.mem_append.mp hmem with ha | hb2
    · exact absurd ha (by decide)
    · exact hct hb2
  have h3 : '\n' ∉ str "Content-Length: " ++ natToStr r.body.length := by
    intro hmem
    rcases List.mem_append.mp hmem with ha | hb2
    · exact absurd ha (by decide)
    · exact natToStr_no_nl r.body.length hb2
  rw [splitNL_append_line _ _ h1, splitNL_append_line _ _ h2,
      splitNL_append_line _ _ h3]
  rfl

/-- C7: the serialized output of buildResponse carries, between the fixed
Content-Length label and the blank separator line, exactly the decimal numeral
of the body's byte length, for every body (empty or not, multi-byte bytes
included); re-parsing that numeral from the wire bytes gives back exactly the
byte length of the body, for any response whose content type is
line-feed-free. -/
theorem c7_content_length_is_body_length (r : Response) :
    (∃ pre, r.buildResponse =
       pre ++ str "Content-Length: " ++ natToStr r.body.length ++ str "\n\n" ++ r.body ∧
       readNat (natToStr r.body.length) = r.body.length) ∧
    ('\n' ∉ r.contentType →
       extractContentLength r.buildResponse = some r.body.length) := by
  constructor
  · refine ⟨str "HTTP/1.1 " ++ natToStr r.code ++ str " " ++ statusReason r.code ++
      str "\n" ++ str "Content-Type: " ++ r.contentType ++ str "\n", ?_, readNat_natToStr _⟩
    unfold Response.buildResponse
    simp [List.append_assoc]
  · intro hct
    unfold extractContentLength
    rw [buildResponse_split r hct]
    simp only [List.get?]
    have hlen : (str "Content-Length: ").length = 16 := by decide
    have htake : (str "Content-Length: " ++ natToStr r.body.length).take 16 =
        str "Content-Length: " := by
      rw [← hlen, List.take_left]
    have hdrop : (str "Content-Length: " ++ natToStr r.body.length).drop 16 =
        natToStr r.body.length := by
      rw [← hlen, List.drop_left]
    rw [htake, hdrop, if_pos rfl, readNat_natToStr]

/-- C7 witness: a response whose body is the two-byte UTF-8 encoding of a
non-ASCII character serializes with Content-Length 2 and re-parses to 2. -/
theorem c7_content_length_is_body_length_witness :
    extractContentLength
      (Response.buildResponse ⟨200, [Char.ofNat 195, Char.ofNat 169], str "text/html"⟩) =
      some 2 :=
  (c7_content_length_is_body_length
    ⟨200, [Char.ofNat 195, Char.ofNat 169], str "text/html"⟩).2 (by decide)

lemma buildResponse_decomp (r : Response) :
    r.buildResponse =
      (str "HTTP/1.1 " ++ natToStr r.code ++ str " " ++ statusReason r.code ++ str "\n") ++
      (str "Content-Type: " ++ r.contentType ++ str "\n" ++
       str "Content-Length: " ++ natToStr r.body.length ++ str "\n\n" ++ r.body) := by
  unfold Response.buildResponse
  simp [List.append_assoc]

/-- C8: every response the handler produces carries status code 200, 404 or
405 — no other value — and buildResponse serializes these three codes with the
fixed reason phrases OK, Not Found and Method Not Allowed in the status line. -/
theorem c8_status_codes_and_reasons :
    (∀ (h : RequestHandler) (fs : FileSystem) (req : Request),
       ((h.handleRequest fs req).1).code = 200 ∨
       ((h.handleRequest fs req).1).code = 404 ∨
       ((h.handleRequest fs req).1).code = 405) ∧
    (∀ r : Response, r.code = 200 →
       ∃ rest, r.buildResponse = str "HTTP/1.1 200 OK\n" ++ rest) ∧
    (∀ r : Response, r.code = 404 →
       ∃ rest, r.buildResponse = str "HTTP/1.1 404 Not Found\n" ++ rest) ∧
    (∀ r : Response, r.code = 405 →
       ∃ rest, r.buildResponse = str "HTTP/1.1 405 Method Not Allowed\n" ++ rest) := by
  refine ⟨?_, ?_, ?_, ?_⟩
  · intro h fs req
    unfold RequestHandler.handleRequest
    cases hroute : alookup req.path h.routeLookUp with
    | none => right; left; rfl
    | some route =>
      by_cases hm : req.method ∈ route.allowedMethods
      · cases hf : route.isFile with
        | false => left; simp [hm, hf]
        | true =>
          cases hread : fs route.content with
          | none => right; left; simp [hm, hf, hread]
          | some content => left; simp [hm, hf, hread]
      · right; right; simp [hm]
  all_goals intro r hcode
  all_goals refine ⟨str "Content-Type: " ++ r.contentType ++ str "\n" ++
    str "Content-Length: " ++ natToStr r.body.length ++ str "\n\n" ++ r.body, ?_⟩
  all_goals rw [buildResponse_decomp, hcode]
  · have : str "HTTP/1.1 " ++ natToStr 200 ++ str " " ++ statusReason 200 ++ str "\n" =
        str "HTTP/1.1 200 OK\n" := by decide
    rw [this]
  · have : str "HTTP/1.1 " ++ natToStr 404 ++ str " " ++ statusReason 404 ++ str "\n" =
        str "HTTP/1.1 404 Not Found\n" := by decide
    rw [this]
  · have : str "HTTP/1.1 " ++ natToStr 405 ++ str " " ++ statusReason 405 ++ str "\n" =
        str "HTTP/1.1 405 Method Not Allowed\n" := by decide
    rw [this]

/-- C8 witness: a 404 lookup failure on an unregistered path, and the three
status lines on concrete responses. -/
theorem c8_status_codes_and_reasons_witness :
    (((RequestHandler.init.handleRequest (fun _ => none)
        ⟨str "GET", str "/nope", str "HTTP/1.1", [], []⟩).1).code = 200 ∨
     ((RequestHandler.init.handleRequest (fun _ => none)
        ⟨str "GET", str "/nope", str "HTTP/1.1", [], []⟩).1).code = 404 ∨
     ((RequestHandler.init.handleRequest (fun _ => none)
        ⟨str "GET", str "/nope", str "HTTP/1.1", [], []⟩).1).code = 405) ∧
    (∃ rest, Response.buildResponse ⟨405, str "x", str "text/html"⟩ =
       str "HTTP/1.1 405 Method Not Allowed\n" ++ rest) :=
  ⟨c8_status_codes_and_reasons.1 RequestHandler.init (fun _ => none)
     ⟨str "GET", str "/nope", str "HTTP/1.1", [], []⟩,
   c8_status_codes_and_reasons.2.2.2 ⟨405, str "x", str "text/html"⟩ rfl⟩
